import Mathlib

/-!
Verification development for the background chain synchronization service
(`src/bin/wasm-node/rust/src/sync_service.rs`).

The service spawns one of two background tasks:

* `start_relay_chain`: drives an `AllSync` state machine, dispatches and
  cancels network requests, and fans best/finalized notifications out to
  subscribers.
* `start_parachain`: subscribes to the relay chain best-block stream, calls a
  runtime entry point on each new relay best block to extract the parachain
  head, and republishes it.

The `AllSync` state machine, the trie proof verifier, the header codec and
the lossy channels are external collaborators (they live outside this
repository's source tree); their interfaces are modelled from the spec and
passed as explicit operation records, while the control flow of the two
tasks is translated directly from the source.

Machine integers are modelled as `Nat`; byte strings as `List Nat`.
-/

namespace SyncService

abbrev Bytes := List Nat
abbrev Hash := List Nat
abbrev PeerId := Nat
abbrev SourceId := Nat
abbrev RequestId := Nat

/-- Messages travelling from the foreground `SyncService` facade to the
background task (`enum ToBackground` in the source; the oneshot reply
senders are modelled as reply effects). -/
inductive ToBackgroundMsg
  | isNearHead
  | subscribeFinalized
  | subscribeBest
  deriving DecidableEq

/-! ## Parachain sync task (`start_parachain`) -/

instance exceptDecidableEq {ε α : Type} [DecidableEq ε] [DecidableEq α] :
    DecidableEq (Except ε α) := fun a b => by
  cases a <;> cases b
  case error.error x y =>
    rw [Except.error.injEq]
    infer_instance
  case ok.ok x y =>
    rw [Except.ok.injEq]
    infer_instance
  case error.ok x y => exact isFalse (by simp)
  case ok.error x y => exact isFalse (by simp)

/-- Modelled from the spec: the runtime-call error returned by
`recent_best_block_runtime_call`, which only exposes
`is_network_problem() → bool` at this layer. -/
structure CallError where
  isNetworkProblem : Bool
  deriving DecidableEq

/-- Modelled from the spec: the external collaborators used by the parachain
task.  `H` is the (abstract) decoded block-header type; `scaleEncode` is
`Header::scale_encoding_vec`, `decodeHeader` is `header::decode`,
`decodePvd` is `para::decode_persisted_validation_data_return_value`
(error, or no validation data, or the `parent_head` bytes), and
`blake2b256` is `blake2b(32, &[], _)`. -/
structure ParaOps (H : Type) where
  scaleEncode : H → Bytes
  decodeHeader : Bytes → Option H
  decodePvd : Bytes → Except Unit (Option Bytes)
  blake2b256 : Bytes → Hash

/-- The mutable state owned by `start_parachain`.  Lossy-channel senders are
identified by the order of their allocation (`nextChannelId`);
`bestSubscriptions` mirrors the `best_subscriptions` vector and
`forgottenSenders` records the senders leaked through `core::mem::forget`. -/
structure ParaState (H : Type) where
  currentFinalizedBlock : H
  currentBestBlock : H
  bestSubscriptions : List Nat
  previousBestHeadDataHash : Option Hash
  nextChannelId : Nat
  forgottenSenders : List Nat
  deriving DecidableEq

/-- Initial parachain state: both current blocks start as the finalized block
header of the initial chain information, no subscriptions, no head hash. -/
def paraInit {H : Type} (finalizedHeader : H) : ParaState H :=
  { currentFinalizedBlock := finalizedHeader
    currentBestBlock := finalizedHeader
    bestSubscriptions := []
    previousBestHeadDataHash := none
    nextChannelId := 0
    forgottenSenders := [] }

/-- One arm of the parachain task's `select!`: either a foreground message or
a new relay-chain best block.  The relay best block is represented by the
outcome of the `ParachainHost_persisted_validation_data` runtime call made
for it (the call itself is an external collaborator). -/
inductive ParaEvent
  | foreground (m : ToBackgroundMsg)
  | relayBestBlock (pvdResult : Except CallError Bytes)
  deriving DecidableEq

/-- Observable effects of one parachain loop iteration: oneshot replies,
lossy-channel notifications, and log statements (one constructor per call
site, with its level). -/
inductive ParaEffect
  | replyBool (b : Bool)
  | replySubscription (current : Bytes) (channel : Nat)
  | sendNotification (channel : Nat) (data : Bytes)
  | logFailedToGetHeadsDebug
  | logFailedToGetHeadsWarn
  | logNoCoreWarn
  | logPvdDecodeError
  | logHeadNotHeaderWarn
  deriving DecidableEq

/-- One iteration of the `start_parachain` main loop, translated from the
source.  Returns the new state and the list of emitted effects in order. -/
def paraStep {H : Type} (ops : ParaOps H) (s : ParaState H) (e : ParaEvent) :
    ParaState H × List ParaEffect :=
  match e with
  | ParaEvent.foreground ToBackgroundMsg.isNearHead =>
      (s, [ParaEffect.replyBool s.previousBestHeadDataHash.isSome])
  | ParaEvent.foreground ToBackgroundMsg.subscribeFinalized =>
      ({ s with
          nextChannelId := s.nextChannelId + 1
          forgottenSenders := s.forgottenSenders ++ [s.nextChannelId] },
       [ParaEffect.replySubscription (ops.scaleEncode s.currentFinalizedBlock)
          s.nextChannelId])
  | ParaEvent.foreground ToBackgroundMsg.subscribeBest =>
      ({ s with
          nextChannelId := s.nextChannelId + 1
          bestSubscriptions := s.bestSubscriptions ++ [s.nextChannelId] },
       [ParaEffect.replySubscription (ops.scaleEncode s.currentBestBlock)
          s.nextChannelId])
  | ParaEvent.relayBestBlock (Except.error err) =>
      ({ s with previousBestHeadDataHash := none },
       [if err.isNetworkProblem then ParaEffect.logFailedToGetHeadsDebug
        else ParaEffect.logFailedToGetHeadsWarn])
  | ParaEvent.relayBestBlock (Except.ok encodedPvd) =>
      match ops.decodePvd encodedPvd with
      | Except.ok none => (s, [ParaEffect.logNoCoreWarn])
      | Except.error _ => (s, [ParaEffect.logPvdDecodeError])
      | Except.ok (some headData) =>
          if s.previousBestHeadDataHash = some (ops.blake2b256 headData) then
            (s, [])
          else
            let s1 := { s with
              previousBestHeadDataHash := some (ops.blake2b256 headData) }
            match ops.decodeHeader headData with
            | some hdr =>
                ({ s1 with currentBestBlock := hdr },
                 s1.bestSubscriptions.map
                   (fun c => ParaEffect.sendNotification c headData))
            | none => (s1, [ParaEffect.logHeadNotHeaderWarn])

/-- Run the parachain loop over a list of events, accumulating effects. -/
def paraRun {H : Type} (ops : ParaOps H) (s : ParaState H) :
    List ParaEvent → ParaState H × List ParaEffect
  | [] => (s, [])
  | e :: es =>
      let step := paraStep ops s e
      let rest := paraRun ops step.1 es
      (rest.1, step.2 ++ rest.2)

/-- The data sent to lossy-channel `c` during a list of effects, in order. -/
def sentTo (c : Nat) (effs : List ParaEffect) : List Bytes :=
  effs.filterMap fun e =>
    match e with
    | ParaEffect.sendNotification c1 d => if c1 = c then some d else none
    | _ => none

/-- Concrete collaborator instance used in counterexamples: headers are raw
byte strings, every byte string decodes as a header, the validation-data
decoder returns its input as the parent head, and the hash is the identity
(only hash equality is ever inspected by the task). -/
def cexOps : ParaOps Bytes :=
  { scaleEncode := fun b => b
    decodeHeader := fun b => some b
    decodePvd := fun b => Except.ok (some b)
    blake2b256 := fun b => b }

/-- An event is benign when it is not a failing runtime call and any head
data it carries decodes as a block header.  Only benign events leave the
head-hash deduplication state in sync with the last notification. -/
def benignEvent {H : Type} (ops : ParaOps H) : ParaEvent → Bool
  | ParaEvent.relayBestBlock (Except.error _) => false
  | ParaEvent.relayBestBlock (Except.ok pvd) =>
      match ops.decodePvd pvd with
      | Except.ok (some hd) => (ops.decodeHeader hd).isSome
      | _ => true
  | _ => true

/-- Channel identifiers handed out so far are below `nextChannelId` and
pairwise distinct; established at `paraInit` and preserved by `paraStep`. -/
def FreshSubs {H : Type} (s : ParaState H) : Prop :=
  (∀ x ∈ s.bestSubscriptions, x < s.nextChannelId) ∧ s.bestSubscriptions.Nodup

theorem sentTo_append (c : Nat) (l1 l2 : List ParaEffect) :
    sentTo c (l1 ++ l2) = sentTo c l1 ++ sentTo c l2 :=
  List.filterMap_append l1 l2 _

theorem sentTo_send_cons (c c1 : Nat) (d : Bytes) (l : List ParaEffect) :
    sentTo c (ParaEffect.sendNotification c1 d :: l)
      = if c1 = c then d :: sentTo c l else sentTo c l := by
  by_cases h : c1 = c <;> simp [sentTo, List.filterMap_cons, h]

theorem sentTo_map_subs (c : Nat) (d : Bytes) (subs : List Nat)
    (h : subs.Nodup) :
    sentTo c (subs.map fun ch => ParaEffect.sendNotification ch d)
      = if c ∈ subs then [d] else [] := by
  induction subs with
  | nil => rfl
  | cons a t ih =>
      rcases List.nodup_cons.mp h with ⟨hat, hnd⟩
      rw [List.map_cons, sentTo_send_cons, ih hnd]
      by_cases hac : a = c
      · subst hac
        simp [hat, List.mem_cons]
      · have hca : ¬c = a := fun hh => hac hh.symm
        simp [hac, hca, List.mem_cons]

theorem sentTo_map_not_mem (c : Nat) (d : Bytes) (subs : List Nat)
    (h : c ∉ subs) :
    sentTo c (subs.map fun ch => ParaEffect.sendNotification ch d) = [] := by
  induction subs with
  | nil => rfl
  | cons a t ih =>
      simp only [List.mem_cons, not_or] at h
      rw [List.map_cons, sentTo_send_cons, if_neg (fun hh => h.1 hh.symm)]
      exact ih h.2

/-- A relay-best-block iteration never touches the subscription registry,
the channel counter, the forgotten senders or the finalized block. -/
theorem paraStep_relay_frame {H : Type} (ops : ParaOps H) (s : ParaState H)
    (r : Except CallError Bytes) :
    (paraStep ops s (ParaEvent.relayBestBlock r)).1.bestSubscriptions
        = s.bestSubscriptions
    ∧ (paraStep ops s (ParaEvent.relayBestBlock r)).1.nextChannelId
        = s.nextChannelId
    ∧ (paraStep ops s (ParaEvent.relayBestBlock r)).1.forgottenSenders
        = s.forgottenSenders
    ∧ (paraStep ops s (ParaEvent.relayBestBlock r)).1.currentFinalizedBlock
        = s.currentFinalizedBlock := by
  cases r with
  | error err => exact ⟨rfl, rfl, rfl, rfl⟩
  | ok pvd =>
      rcases hdp : ops.decodePvd pvd with u | o
      · simp [paraStep, hdp]
      · rcases o with _ | hd
        · simp [paraStep, hdp]
        · by_cases hh : s.previousBestHeadDataHash = some (ops.blake2b256 hd)
          · simp [paraStep, hdp, hh]
          · rcases hdh : ops.decodeHeader hd with _ | hdr
            · simp [paraStep, hdp, hh, hdh]
            · simp [paraStep, hdp, hh, hdh]

theorem paraStep_fresh {H : Type} (ops : ParaOps H) (s : ParaState H)
    (e : ParaEvent) (h : FreshSubs s) : FreshSubs (paraStep ops s e).1 := by
  obtain ⟨hlt, hnd⟩ := h
  cases e with
  | foreground m =>
      cases m with
      | isNearHead => exact ⟨hlt, hnd⟩
      | subscribeFinalized =>
          exact ⟨fun x hx => Nat.lt_succ_of_lt (hlt x hx), hnd⟩
      | subscribeBest =>
          refine ⟨?_, ?_⟩
          · intro x hx
            have hx' : x ∈ s.bestSubscriptions ++ [s.nextChannelId] := hx
            show x < s.nextChannelId + 1
            rcases List.mem_append.mp hx' with hx1 | hx1
            · exact Nat.lt_succ_of_lt (hlt x hx1)
            · have := List.mem_singleton.mp hx1
              omega
          · show (s.bestSubscriptions ++ [s.nextChannelId]).Nodup
            refine List.Nodup.append hnd (List.nodup_singleton _) ?_
            intro x hx hx'
            have hx2 := List.mem_singleton.mp hx'
            subst hx2
            exact Nat.lt_irrefl _ (hlt _ hx)
  | relayBestBlock r =>
      obtain ⟨h1, h2, h3, h4⟩ := paraStep_relay_frame ops s r
      exact ⟨fun x hx => h2 ▸ hlt x (h1 ▸ hx), h1 ▸ hnd⟩

theorem paraStep_finalized {H : Type} (ops : ParaOps H) (s : ParaState H)
    (e : ParaEvent) :
    (paraStep ops s e).1.currentFinalizedBlock = s.currentFinalizedBlock := by
  cases e with
  | foreground m => cases m <;> rfl
  | relayBestBlock r => exact (paraStep_relay_frame ops s r).2.2.2

theorem paraRun_finalized_const {H : Type} (ops : ParaOps H) :
    ∀ (es : List ParaEvent) (s : ParaState H),
      (paraRun ops s es).1.currentFinalizedBlock = s.currentFinalizedBlock := by
  intro es
  induction es with
  | nil => intro s; rfl
  | cons e t ih =>
      intro s
      simp only [paraRun]
      rw [ih]
      exact paraStep_finalized ops s e

/-- A single iteration never notifies a channel outside the registry. -/
theorem paraStep_sends {H : Type} (ops : ParaOps H) (s : ParaState H)
    (e : ParaEvent) (c : Nat) (hc : c ∉ s.bestSubscriptions) :
    sentTo c (paraStep ops s e).2 = [] := by
  cases e with
  | foreground m => cases m <;> rfl
  | relayBestBlock r =>
      cases r with
      | error err =>
          rcases err with ⟨b⟩
          cases b <;> rfl
      | ok pvd =>
          rcases hdp : ops.decodePvd pvd with u | o
          · simp [paraStep, hdp, sentTo]
          · rcases o with _ | hd
            · simp [paraStep, hdp, sentTo]
            · by_cases hh : s.previousBestHeadDataHash = some (ops.blake2b256 hd)
              · simp [paraStep, hdp, hh, sentTo]
              · rcases hdh : ops.decodeHeader hd with _ | hdr
                · simp [paraStep, hdp, hh, hdh, sentTo]
                · have hstate :
                      (paraStep ops s (ParaEvent.relayBestBlock (Except.ok pvd))).2
                        = s.bestSubscriptions.map
                            (fun ch => ParaEffect.sendNotification ch hd) := by
                    simp [paraStep, hdp, hh, hdh]
                  rw [hstate]
                  exact sentTo_map_not_mem c hd _ hc

theorem paraStep_subs_bound {H : Type} (ops : ParaOps H) (s : ParaState H)
    (e : ParaEvent) (x : Nat)
    (hx : x ∈ (paraStep ops s e).1.bestSubscriptions) :
    x ∈ s.bestSubscriptions ∨ x = s.nextChannelId := by
  cases e with
  | foreground m =>
      cases m with
      | isNearHead => exact Or.inl hx
      | subscribeFinalized => exact Or.inl hx
      | subscribeBest =>
          have hx' : x ∈ s.bestSubscriptions ++ [s.nextChannelId] := hx
          rcases List.mem_append.mp hx' with h | h
          · exact Or.inl h
          · exact Or.inr (List.mem_singleton.mp h)
  | relayBestBlock r =>
      exact Or.inl ((paraStep_relay_frame ops s r).1 ▸ hx)

theorem paraStep_next_mono {H : Type} (ops : ParaOps H) (s : ParaState H)
    (e : ParaEvent) :
    s.nextChannelId ≤ (paraStep ops s e).1.nextChannelId := by
  cases e with
  | foreground m =>
      cases m with
      | isNearHead => exact Nat.le_refl _
      | subscribeFinalized => exact Nat.le_succ _
      | subscribeBest => exact Nat.le_succ _
  | relayBestBlock r =>
      exact Nat.le_of_eq ((paraStep_relay_frame ops s r).2.1).symm

/-- A channel that is not registered (and below the allocation counter)
never receives any notification during any run, and never becomes
registered. -/
theorem paraRun_unsubscribed {H : Type} (ops : ParaOps H) (c : Nat) :
    ∀ (es : List ParaEvent) (s : ParaState H),
      c ∉ s.bestSubscriptions → c < s.nextChannelId →
      sentTo c (paraRun ops s es).2 = []
      ∧ c ∉ (paraRun ops s es).1.bestSubscriptions := by
  intro es
  induction es with
  | nil => intro s h1 _; exact ⟨rfl, h1⟩
  | cons e t ih =>
      intro s h1 h2
      have hstep := paraStep_sends ops s e c h1
      have h1' : c ∉ (paraStep ops s e).1.bestSubscriptions := by
        intro hmem
        rcases paraStep_subs_bound ops s e c hmem with h | h
        · exact h1 h
        · omega
      have h2' : c < (paraStep ops s e).1.nextChannelId :=
        Nat.lt_of_lt_of_le h2 (paraStep_next_mono ops s e)
      obtain ⟨ha, hb⟩ := ih (paraStep ops s e).1 h1' h2'
      refine ⟨?_, hb⟩
      simp only [paraRun, sentTo_append, hstep, ha, List.append_nil]

theorem paraStep_forgotten_mono {H : Type} (ops : ParaOps H) (s : ParaState H)
    (e : ParaEvent) (x : Nat) (h : x ∈ s.forgottenSenders) :
    x ∈ (paraStep ops s e).1.forgottenSenders := by
  cases e with
  | foreground m =>
      cases m with
      | isNearHead => exact h
      | subscribeFinalized =>
          show x ∈ s.forgottenSenders ++ [s.nextChannelId]
          exact List.mem_append.mpr (Or.inl h)
      | subscribeBest => exact h
  | relayBestBlock r =>
      exact ((paraStep_relay_frame ops s r).2.2.1).symm ▸ h

theorem paraRun_forgotten {H : Type} (ops : ParaOps H) (x : Nat) :
    ∀ (es : List ParaEvent) (s : ParaState H),
      x ∈ s.forgottenSenders → x ∈ (paraRun ops s es).1.forgottenSenders := by
  intro es
  induction es with
  | nil => intro s h; exact h
  | cons e t ih =>
      intro s h
      exact ih (paraStep ops s e).1 (paraStep_forgotten_mono ops s e x h)

/-- Along a run of benign events, every channel's notification stream —
prefixed with an optional previously delivered head `prev` that the
head-hash state still reflects — contains no two adjacent equal head
payloads. -/
theorem paraRun_sentTo_chain {H : Type} (ops : ParaOps H) (c : Nat) :
    ∀ (es : List ParaEvent) (s : ParaState H) (prev : Option Bytes),
      FreshSubs s →
      (∀ e ∈ es, benignEvent ops e = true) →
      (∀ d, prev = some d →
        c ∈ s.bestSubscriptions
        ∧ s.previousBestHeadDataHash = some (ops.blake2b256 d)) →
      List.Chain' (fun a b => a ≠ b)
        (prev.toList ++ sentTo c (paraRun ops s es).2) := by
  intro es
  induction es with
  | nil =>
      intro s prev _ _ _
      cases prev with
      | none => simp [paraRun, sentTo]
      | some d => simp [paraRun, sentTo]
  | cons e t ih =>
      intro s prev hf hb hp
      have hbe := hb e (List.mem_cons_self e t)
      have hbt : ∀ x ∈ t, benignEvent ops x = true := fun x hx =>
        hb x (List.mem_cons_of_mem e hx)
      have hf' := paraStep_fresh ops s e hf
      simp only [paraRun, sentTo_append]
      cases e with
      | foreground m =>
          have hsend : sentTo c (paraStep ops s (ParaEvent.foreground m)).2 = [] := by
            cases m <;> rfl
          rw [hsend, List.nil_append]
          apply ih _ prev hf' hbt
          intro d hd
          obtain ⟨hmem, hhash⟩ := hp d hd
          cases m with
          | isNearHead => exact ⟨hmem, hhash⟩
          | subscribeFinalized => exact ⟨hmem, hhash⟩
          | subscribeBest =>
              exact ⟨List.mem_append.mpr (Or.inl hmem), hhash⟩
      | relayBestBlock r =>
          cases r with
          | error err => simp [benignEvent] at hbe
          | ok pvd =>
              rcases hdp : ops.decodePvd pvd with u | o
              · have hstate : paraStep ops s (ParaEvent.relayBestBlock (Except.ok pvd))
                    = (s, [ParaEffect.logPvdDecodeError]) := by
                  simp [paraStep, hdp]
                rw [hstate]
                have : sentTo c [ParaEffect.logPvdDecodeError] = [] := rfl
                rw [this, List.nil_append]
                exact ih s prev hf hbt hp
              · rcases o with _ | hd
                · have hstate : paraStep ops s (ParaEvent.relayBestBlock (Except.ok pvd))
                      = (s, [ParaEffect.logNoCoreWarn]) := by
                    simp [paraStep, hdp]
                  rw [hstate]
                  have : sentTo c [ParaEffect.logNoCoreWarn] = [] := rfl
                  rw [this, List.nil_append]
                  exact ih s prev hf hbt hp
                · by_cases hh : s.previousBestHeadDataHash
                      = some (ops.blake2b256 hd)
                  · have hstate : paraStep ops s (ParaEvent.relayBestBlock (Except.ok pvd))
                        = (s, []) := by
                      simp [paraStep, hdp, hh]
                    rw [hstate]
                    have : sentTo c ([] : List ParaEffect) = [] := rfl
                    rw [this, List.nil_append]
                    exact ih s prev hf hbt hp
                  · have hdec : (ops.decodeHeader hd).isSome = true := by
                      simp only [benignEvent, hdp] at hbe
                      exact hbe
                    obtain ⟨hdr, hdh⟩ := Option.isSome_iff_exists.mp hdec
                    have hstate : paraStep ops s (ParaEvent.relayBestBlock (Except.ok pvd))
                        = ({ s with
                              previousBestHeadDataHash :=
                                some (ops.blake2b256 hd)
                              currentBestBlock := hdr },
                           s.bestSubscriptions.map
                             (fun ch => ParaEffect.sendNotification ch hd)) := by
                      simp [paraStep, hdp, hh, hdh]
                    rw [hstate] at hf' ⊢
                    rw [sentTo_map_subs c hd s.bestSubscriptions hf.2]
                    by_cases hcm : c ∈ s.bestSubscriptions
                    · rw [if_pos hcm]
                      have hih := ih _ (some hd) hf' hbt ?_
                      · cases prev with
                        | none =>
                            simpa using hih
                        | some d =>
                            have hne : d ≠ hd := fun heq =>
                              hh (heq ▸ (hp d rfl).2)
                            simp only [Option.toList] at hih ⊢
                            simp only [List.singleton_append,
                              List.cons_append, List.nil_append] at hih ⊢
                            exact List.chain'_cons.mpr ⟨hne, hih⟩
                      · intro d' hd'
                        cases hd'
                        exact ⟨hcm, rfl⟩
                    · rw [if_neg hcm, List.nil_append]
                      cases prev with
                      | some d => exact absurd (hp d rfl).1 hcm
                      | none =>
                          apply ih _ none hf' hbt
                          intro d' hd'
                          cases hd'

/-! ## Parachain claims -/

/-- C5: on a failing runtime call for a new relay best block, the parachain
task clears `previous_best_head_data_hash`, logs exactly one message —
at debug level when the error is a network problem and at warn level
otherwise — sends no notification, and otherwise leaves the state
unchanged before continuing the loop. -/
theorem para_call_failure {H : Type} (ops : ParaOps H) (s : ParaState H)
    (err : CallError) :
    (paraStep ops s (ParaEvent.relayBestBlock (Except.error err))).1
      = { s with previousBestHeadDataHash := none }
    ∧ (paraStep ops s (ParaEvent.relayBestBlock (Except.error err))).2
      = [if err.isNetworkProblem then ParaEffect.logFailedToGetHeadsDebug
         else ParaEffect.logFailedToGetHeadsWarn]
    ∧ ∀ ch, sentTo ch
        (paraStep ops s (ParaEvent.relayBestBlock (Except.error err))).2 = [] := by
  refine ⟨rfl, rfl, fun ch => ?_⟩
  rcases err with ⟨b⟩
  cases b <;> rfl

/-- Event trace refuting the stickiness of the near-head heuristic: a head
is obtained (populating the hash), then a runtime call fails (clearing
it), then the heuristic is queried. -/
def heuristicEvents : List ParaEvent :=
  [ParaEvent.relayBestBlock (Except.ok [1]),
   ParaEvent.relayBestBlock (Except.error { isNetworkProblem := true }),
   ParaEvent.foreground ToBackgroundMsg.isNearHead]

/-- C2 counterexample: `previous_best_head_data_hash` is populated by the
first relay best block, yet after a failing runtime call the heuristic
replies `false` — so "populated at least once implies true for the
lifetime of the task" is false on the code. -/
theorem para_heuristic_not_sticky :
    ((paraStep cexOps (paraInit [])
        (ParaEvent.relayBestBlock (Except.ok [1]))).1.previousBestHeadDataHash).isSome
      = true
    ∧ (paraRun cexOps (paraInit []) heuristicEvents).2
      = [ParaEffect.logFailedToGetHeadsDebug, ParaEffect.replyBool false] := by
  decide

/-- C2 (amended): `is_near_head_of_chain_heuristic` replies with whether
`previous_best_head_data_hash` is *currently* populated; a failing
runtime call clears the hash, so the heuristic can revert to `false`
after having been `true`. -/
theorem para_heuristic_current {H : Type} (ops : ParaOps H) (s : ParaState H) :
    paraStep ops s (ParaEvent.foreground ToBackgroundMsg.isNearHead)
      = (s, [ParaEffect.replyBool s.previousBestHeadDataHash.isSome])
    ∧ ∀ err, (paraStep ops s
        (ParaEvent.relayBestBlock (Except.error err))).1.previousBestHeadDataHash
      = none :=
  ⟨rfl, fun _ => rfl⟩

/-- Event trace refuting duplicate suppression across a runtime-call
failure: head `[7]` is notified, the failure clears the hash, and the
same head `[7]` is notified again. -/
def duplicateEvents : List ParaEvent :=
  [ParaEvent.foreground ToBackgroundMsg.subscribeBest,
   ParaEvent.relayBestBlock (Except.ok [7]),
   ParaEvent.relayBestBlock (Except.error { isNetworkProblem := true }),
   ParaEvent.relayBestBlock (Except.ok [7])]

/-- C3 counterexample: subscriber channel 0 receives two consecutive best
notifications with identical head bytes `[7]`, because the intervening
runtime-call failure cleared `previous_best_head_data_hash`. -/
theorem para_consecutive_duplicate :
    (paraRun cexOps (paraInit []) duplicateEvents).2
      = [ParaEffect.replySubscription [] 0,
         ParaEffect.sendNotification 0 [7],
         ParaEffect.logFailedToGetHeadsDebug,
         ParaEffect.sendNotification 0 [7]]
    ∧ sentTo 0 (paraRun cexOps (paraInit []) duplicateEvents).2 = [[7], [7]] := by
  decide

/-- C3 (amended): when the BLAKE2b-256 hash of a freshly obtained head
equals `previous_best_head_data_hash`, the iteration does nothing at all;
consequently, along any run in which no runtime call fails and every
obtained head decodes as a header, no channel receives two consecutive
best notifications with identical head bytes.  (A failing call or an
undecodable head resets or moves the hash without a notification, after
which the duplicate guard no longer relates to the last notification.) -/
theorem para_duplicate_suppression {H : Type} (ops : ParaOps H) :
    (∀ (s : ParaState H) (pvd hd : Bytes),
        ops.decodePvd pvd = Except.ok (some hd) →
        s.previousBestHeadDataHash = some (ops.blake2b256 hd) →
        paraStep ops s (ParaEvent.relayBestBlock (Except.ok pvd)) = (s, []))
    ∧ ∀ (finalizedHeader : H) (es : List ParaEvent) (c : Nat),
        (∀ e ∈ es, benignEvent ops e = true) →
        List.Chain' (fun a b => a ≠ b)
          (sentTo c (paraRun ops (paraInit finalizedHeader) es).2) := by
  constructor
  · intro s pvd hd h1 h2
    simp [paraStep, h1, h2]
  · intro finalizedHeader es c hb
    have hfresh : FreshSubs (paraInit finalizedHeader) :=
      ⟨fun x hx => absurd hx (List.not_mem_nil x), List.nodup_nil⟩
    have h := paraRun_sentTo_chain ops c es (paraInit finalizedHeader) none
      hfresh hb (fun d hd => Option.noConfusion hd)
    simpa using h

/-- A benign trace exercising subscription and suppressed/new heads. -/
def benignEvents : List ParaEvent :=
  [ParaEvent.foreground ToBackgroundMsg.subscribeBest,
   ParaEvent.relayBestBlock (Except.ok [1]),
   ParaEvent.relayBestBlock (Except.ok [2]),
   ParaEvent.relayBestBlock (Except.ok [2])]

/-- A parachain state whose deduplication hash matches head `[5]`. -/
def hashMatchedState : ParaState Bytes :=
  { paraInit [] with previousBestHeadDataHash := some [5] }

theorem para_duplicate_suppression_witness :
    paraStep cexOps hashMatchedState (ParaEvent.relayBestBlock (Except.ok [5]))
      = (hashMatchedState, [])
    ∧ List.Chain' (fun a b => a ≠ b)
        (sentTo 0 (paraRun cexOps (paraInit []) benignEvents).2) :=
  ⟨(para_duplicate_suppression cexOps).1 hashMatchedState [5] [5] rfl (by decide),
   (para_duplicate_suppression cexOps).2 [] benignEvents 0 (by decide)⟩

/-- C9: when new head data does not decode as a block header, the hash has
nevertheless already been updated, `current_best_block` is untouched, no
notification is sent, and the failure is logged at warn level; a second
relay block with the same head data is then suppressed by the hash
comparison, producing no effect at all — hence the warning is logged only
once for repeated identical undecodable head data. -/
theorem para_undecodable_head {H : Type} (ops : ParaOps H) (s : ParaState H)
    (pvd hd : Bytes)
    (h1 : ops.decodePvd pvd = Except.ok (some hd))
    (h2 : ops.decodeHeader hd = none)
    (h3 : ¬s.previousBestHeadDataHash = some (ops.blake2b256 hd)) :
    paraStep ops s (ParaEvent.relayBestBlock (Except.ok pvd))
      = ({ s with previousBestHeadDataHash := some (ops.blake2b256 hd) },
         [ParaEffect.logHeadNotHeaderWarn])
    ∧ paraStep ops
        { s with previousBestHeadDataHash := some (ops.blake2b256 hd) }
        (ParaEvent.relayBestBlock (Except.ok pvd))
      = ({ s with previousBestHeadDataHash := some (ops.blake2b256 hd) }, []) := by
  constructor
  · simp [paraStep, h1, h2, h3]
  · simp [paraStep, h1]

/-- Concrete collaborators where no head data decodes as a header. -/
def undecOps : ParaOps Bytes :=
  { scaleEncode := fun b => b
    decodeHeader := fun _ => none
    decodePvd := fun b => Except.ok (some b)
    blake2b256 := fun b => b }

theorem para_undecodable_head_witness :
    paraStep undecOps (paraInit []) (ParaEvent.relayBestBlock (Except.ok [3]))
      = ({ paraInit [] with
            previousBestHeadDataHash := some (undecOps.blake2b256 [3]) },
         [ParaEffect.logHeadNotHeaderWarn])
    ∧ paraStep undecOps
        { paraInit ([] : Bytes) with
            previousBestHeadDataHash := some (undecOps.blake2b256 [3]) }
        (ParaEvent.relayBestBlock (Except.ok [3]))
      = ({ paraInit [] with
            previousBestHeadDataHash := some (undecOps.blake2b256 [3]) }, []) :=
  para_undecodable_head undecOps (paraInit []) [3] [3] rfl rfl (by decide)

/-- C10: `subscribe_finalized` on the parachain replies with the SCALE
encoding of `current_finalized_block` — which no run ever mutates, so it
is always the finalized header from the initial chain description — and
leaks its sender through `mem::forget` instead of registering it: the
allocated channel never receives a notification in any subsequent run,
and the sender stays forgotten (never dropped), so the receiver never
terminates. -/
theorem para_subscribe_finalized_inert {H : Type} (ops : ParaOps H)
    (s : ParaState H) (es : List ParaEvent)
    (hfresh : ∀ x ∈ s.bestSubscriptions, x < s.nextChannelId) :
    (paraStep ops s (ParaEvent.foreground ToBackgroundMsg.subscribeFinalized)).2
      = [ParaEffect.replySubscription
          (ops.scaleEncode s.currentFinalizedBlock) s.nextChannelId]
    ∧ (paraStep ops s
        (ParaEvent.foreground ToBackgroundMsg.subscribeFinalized)).1.bestSubscriptions
      = s.bestSubscriptions
    ∧ (paraRun ops (paraStep ops s
        (ParaEvent.foreground ToBackgroundMsg.subscribeFinalized)).1 es).1.currentFinalizedBlock
      = s.currentFinalizedBlock
    ∧ sentTo s.nextChannelId
        (paraRun ops (paraStep ops s
          (ParaEvent.foreground ToBackgroundMsg.subscribeFinalized)).1 es).2
      = []
    ∧ s.nextChannelId ∈
        (paraRun ops (paraStep ops s
          (ParaEvent.foreground ToBackgroundMsg.subscribeFinalized)).1 es).1.forgottenSenders := by
  have hnotin : s.nextChannelId ∉ s.bestSubscriptions := fun hmem =>
    Nat.lt_irrefl _ (hfresh _ hmem)
  refine ⟨rfl, rfl, ?_, ?_, ?_⟩
  · rw [paraRun_finalized_const]
    rfl
  · exact (paraRun_unsubscribed ops s.nextChannelId es
      (paraStep ops s (ParaEvent.foreground ToBackgroundMsg.subscribeFinalized)).1
      hnotin (Nat.lt_succ_self _)).1
  · apply paraRun_forgotten
    show s.nextChannelId ∈ s.forgottenSenders ++ [s.nextChannelId]
    exact List.mem_append.mpr (Or.inr (List.mem_singleton.mpr rfl))

theorem para_subscribe_finalized_inert_witness :
    (paraStep cexOps (paraInit [])
        (ParaEvent.foreground ToBackgroundMsg.subscribeFinalized)).2
      = [ParaEffect.replySubscription
          (cexOps.scaleEncode (paraInit ([] : Bytes)).currentFinalizedBlock)
          (paraInit ([] : Bytes)).nextChannelId]
    ∧ (paraStep cexOps (paraInit [])
        (ParaEvent.foreground ToBackgroundMsg.subscribeFinalized)).1.bestSubscriptions
      = (paraInit ([] : Bytes)).bestSubscriptions
    ∧ (paraRun cexOps (paraStep cexOps (paraInit [])
        (ParaEvent.foreground ToBackgroundMsg.subscribeFinalized)).1
          benignEvents).1.currentFinalizedBlock
      = (paraInit ([] : Bytes)).currentFinalizedBlock
    ∧ sentTo (paraInit ([] : Bytes)).nextChannelId
        (paraRun cexOps (paraStep cexOps (paraInit [])
          (ParaEvent.foreground ToBackgroundMsg.subscribeFinalized)).1
            benignEvents).2
      = []
    ∧ (paraInit ([] : Bytes)).nextChannelId ∈
        (paraRun cexOps (paraStep cexOps (paraInit [])
          (ParaEvent.foreground ToBackgroundMsg.subscribeFinalized)).1
            benignEvents).1.forgottenSenders :=
  para_subscribe_finalized_inert cexOps (paraInit []) benignEvents (by decide)

/-! ## Relay-chain sync task (`start_relay_chain`) -/

/-- Modelled from the spec: `all::BlocksRequestFirstBlock`. -/
inductive FirstBlock
  | hash (h : Hash)
  | number (n : Nat)
  deriving DecidableEq

/-- Modelled from the spec: `all::RequestDetail`, the payload of a request
the `AllSync` state machine asks the task to start. -/
inductive RequestDetail
  | blocksRequest (firstBlock : FirstBlock) (ascending : Bool) (numBlocks : Nat)
      (requestHeaders requestBodies requestJustification : Bool)
  | grandpaWarpSync (syncStartBlockHash : Hash)
  | storageGet (blockHash : Hash) (stateTrieRoot : Hash) (keys : List Bytes)
  deriving DecidableEq

/-- Modelled from the spec: `all::Action`, emitted by the state machine. -/
inductive RelayAction
  | start (sourceId : SourceId) (requestId : RequestId) (detail : RequestDetail)
  | cancel (requestId : RequestId)
  deriving DecidableEq

/-- The `all::Config` value built at the top of `start_relay_chain`
(`full: None` becomes `full := none`). -/
structure AllSyncConfig where
  sourcesCapacity : Nat
  sourceSelectionRandomnessSeed : Nat
  blocksRequestGranularity : Nat
  blocksCapacity : Nat
  downloadAheadBlocks : Nat
  full : Option Unit
  deriving DecidableEq

/-- The configuration `start_relay_chain` passes to `AllSync::new`, with the
randomness seed (`rand::random()`) taken as a parameter. -/
def relayAllSyncConfig (seed : Nat) : AllSyncConfig :=
  { sourcesCapacity := 32
    sourceSelectionRandomnessSeed := seed
    blocksRequestGranularity := 128
    blocksCapacity := 1024
    downloadAheadBlocks := 5000
    full := none }

/-- `u32::try_from(num_blocks.get()).unwrap_or(u32::max_value())`: the
desired block count sent to the network layer. -/
def desiredCount (numBlocks : Nat) : Nat :=
  if numBlocks ≤ 4294967295 then numBlocks else 4294967295

/-- Modelled from the spec: the `AllSync` tagged union.  `I` is the opaque
state of the `Idle` variant, `V` of the `HeaderVerify` variant. -/
inductive AllSync (I V : Type)
  | idle (i : I)
  | headerVerify (v : V)
  deriving DecidableEq

/-- Modelled from the spec: outcome of `HeaderVerify::perform`. -/
inductive HeaderVerifyOutcome (I : Type)
  | success (sync : I) (nextActions : List RelayAction)
      (isNewBest isNewFinalized : Bool)
  | error (sync : I) (nextActions : List RelayAction)

/-- Modelled from the spec: outcome of `Idle::block_announce`. -/
inductive BlockAnnounceOutcome (I V : Type)
  | headerVerify (v : V)
  | tooOld (i : I)
  | alreadyInChain (i : I)
  | notFinalizedChain (i : I)
  | disjoint (sync : I) (nextActions : List RelayAction)
  | invalidHeader (sync : I)

/-- Modelled from the spec: outcome of `Idle::blocks_request_response`. -/
inductive BlocksRequestResponseOutcome (I V : Type)
  | verifyHeader (v : V)
  | queued (sync : I) (nextActions : List RelayAction)
  | notFinalizedChain (sync : I) (nextActions : List RelayAction)
  | inconclusive (sync : I) (nextActions : List RelayAction)
  | allAlreadyInChain (sync : I) (nextActions : List RelayAction)

/-- Modelled from the spec: outcome of `Idle::grandpa_warp_sync_response`
and `Idle::storage_get_response`. -/
inductive WarpSyncResponseOutcome (I : Type)
  | warpSyncFinished (sync : I) (nextActions : List RelayAction)
  | queued (sync : I) (nextActions : List RelayAction)

/-- One block of a blocks-request response as delivered by the network
service (only the fields the task reads). -/
structure BlockData where
  header : Option Bytes
  justification : Option Bytes
  deriving DecidableEq

/-- `all::BlockRequestSuccessBlock` as built by the task (extrinsics are
always empty, user data is unit). -/
structure BlockRequestSuccessBlock where
  scaleEncodedHeader : Bytes
  scaleEncodedJustification : Option Bytes
  deriving DecidableEq

/-- The `filter_map` converting network blocks into state-machine blocks:
blocks without a header are dropped. -/
def toSuccessBlocks (l : List BlockData) : List BlockRequestSuccessBlock :=
  l.filterMap fun b =>
    b.header.map fun h =>
      { scaleEncodedHeader := h, scaleEncodedJustification := b.justification }

/-- Modelled from the spec: the operations of the `AllSync` library the task
invokes, as an abstract interface (the library is outside this repository's
source tree). -/
structure SyncOps (I V : Type) where
  sourceUserData : I → SourceId → PeerId
  performVerify : V → HeaderVerifyOutcome I
  isNearHeadOfChainHeuristic : I → Bool
  finalizedBlockHeader : I → Bytes
  finalizedBlockNumber : I → Nat
  bestBlockHeader : I → Bytes
  grandpaSetId : I → Option Nat
  addSource : I → PeerId → Nat → Hash → I × SourceId × List RelayAction
  removeSource : I → SourceId → I × List RequestId
  blockAnnounce : I → SourceId → Bytes → Bool → BlockAnnounceOutcome I V
  blocksRequestResponse :
    I → RequestId → Except Unit (List BlockRequestSuccessBlock) →
      BlocksRequestResponseOutcome I V
  grandpaWarpSyncResponse :
    I → RequestId → Option Bytes → WarpSyncResponseOutcome I
  storageGetResponse :
    I → RequestId → Except Unit (List (Option Bytes)) →
      WarpSyncResponseOutcome I

/-- The mutable state owned by `start_relay_chain`: the machine, the
`peer_id → source_id` map, the pending-request table (the abort handles are
represented by the mere presence of a request id), the two notification
registries (by sender count), the queued actions, and the two flags. -/
structure RelayState (I V : Type) where
  sync : AllSync I V
  peersSourceIdMap : List (PeerId × SourceId)
  pendingRequests : List RequestId
  finalizedNotificationCount : Nat
  bestNotificationCount : Nat
  requestsToStart : List RelayAction
  hasNewBest : Bool
  hasNewFinalized : Bool
  deriving DecidableEq

/-- Observable effects of one relay loop iteration, in emission order. -/
inductive RelayEffect
  | startBlocksRequest (peer : PeerId) (chainIndex : Nat) (rid : RequestId)
      (start : FirstBlock) (count : Nat) (ascending : Bool)
      (header body justification : Bool)
  | startGrandpaRequest (peer : PeerId) (chainIndex : Nat) (rid : RequestId)
      (startHash : Hash)
  | startStorageRequest (peer : PeerId) (chainIndex : Nat) (rid : RequestId)
      (blockHash : Hash) (keys : List Bytes)
  | abortRequest (rid : RequestId)
  | notifyBestAll (data : Bytes)
  | notifyFinalizedAll (data : Bytes)
  | setLocalGrandpaState (chainIndex setId roundNumber height : Nat)
  | yieldOnce
  | logVerifyWarn
  | logWarpSyncFinishedInfo (n : Nat)
  | replyBool (b : Bool)
  | replySubscription (current : Bytes)
  | injectBlocksResponse (rid : RequestId)
  | injectGrandpaResponse (rid : RequestId)
  | injectStorageResponse (rid : RequestId)
  deriving DecidableEq

/-- Network-service events, tagged by chain index. -/
inductive NetworkEvent
  | connected (peerId : PeerId) (chainIndex : Nat)
      (bestBlockNumber : Nat) (bestBlockHash : Hash)
  | disconnected (peerId : PeerId) (chainIndex : Nat)
  | blockAnnounce (peerId : PeerId) (chainIndex : Nat)
      (scaleHeader : Bytes) (isBest : Bool)
  | grandpaCommitMessage (chainIndex : Nat)
  deriving DecidableEq

/-- The four sources of the relay task's `select!`: a network event, a
foreground message (`none` = channel closed), or the completion of a
pending request (`none` = the future was aborted). -/
inductive LoopInput
  | net (e : Option NetworkEvent)
  | fg (m : Option ToBackgroundMsg)
  | blockResp (rid : RequestId) (res : Option (Except Unit (List BlockData)))
  | grandpaResp (rid : RequestId) (res : Option (Except Unit Bytes))
  | storageResp (rid : RequestId)
      (res : Option (Except Unit (List (Option Bytes))))
  deriving DecidableEq

/-- Computation that either produces a value or aborts the whole task
through a Rust `panic!`. -/
inductive PanicOr (α : Type)
  | panicked
  | ok (a : α)
  deriving DecidableEq

/-- Per-key verification loop of the storage-proof continuation: each key is
checked with `proof_verify::verify_proof`; the error arm of the `map_err`
contains `panic!("{:?}", _err)`, so a verification failure panics instead
of producing the `Err` value the surrounding `collect` would gather. -/
def verifyKeys (verifyProof : List Bytes → Bytes → Hash → Except Unit (Option Bytes))
    (proof : List Bytes) (stateTrieRoot : Hash) :
    List Bytes → PanicOr (List (Option Bytes))
  | [] => PanicOr.ok []
  | k :: ks =>
      match verifyProof proof k stateTrieRoot with
      | Except.error _ => PanicOr.panicked
      | Except.ok v =>
          match verifyKeys verifyProof proof stateTrieRoot ks with
          | PanicOr.panicked => PanicOr.panicked
          | PanicOr.ok vs => PanicOr.ok (v :: vs)

/-- The async continuation wrapped around `storage_proof_request` (source
lines 348–371): a failed network request becomes `Err(())`; a successful
one has every requested key verified against the supplied trie root, the
results aligned with the input keys — except that a verification failure
hits the debugging `panic!` left in the `map_err` closure. -/
def storageRequestResult
    (verifyProof : List Bytes → Bytes → Hash → Except Unit (Option Bytes))
    (stateTrieRoot : Hash) (keys : List Bytes)
    (outcome : Except Unit (List Bytes)) :
    PanicOr (Except Unit (List (Option Bytes))) :=
  match outcome with
  | Except.error _ => PanicOr.ok (Except.error ())
  | Except.ok proof =>
      match verifyKeys verifyProof proof stateTrieRoot keys with
      | PanicOr.panicked => PanicOr.panicked
      | PanicOr.ok vs => PanicOr.ok (Except.ok vs)

/-- Convert one queued action into an outgoing request / abort, updating the
pending-request table.  `none` models the `unwrap()` panic when a `Cancel`
names a request id that is not pending. -/
def drainOne {I V : Type} (ops : SyncOps I V) (chainIndex : Nat) (i : I)
    (pending : List RequestId) :
    RelayAction → Option (List RequestId × RelayEffect)
  | RelayAction.start sourceId rid
      (RequestDetail.blocksRequest fb asc nb rh rb rj) =>
      some (pending ++ [rid],
        RelayEffect.startBlocksRequest (ops.sourceUserData i sourceId)
          chainIndex rid fb (desiredCount nb) asc rh rb rj)
  | RelayAction.start sourceId rid (RequestDetail.grandpaWarpSync h) =>
      some (pending ++ [rid],
        RelayEffect.startGrandpaRequest (ops.sourceUserData i sourceId)
          chainIndex rid h)
  | RelayAction.start sourceId rid (RequestDetail.storageGet bh _stateTrieRoot keys) =>
      some (pending ++ [rid],
        RelayEffect.startStorageRequest (ops.sourceUserData i sourceId)
          chainIndex rid bh keys)
  | RelayAction.cancel rid =>
      if rid ∈ pending then some (pending.erase rid, RelayEffect.abortRequest rid)
      else none

/-- Result of draining the action queue. -/
inductive DrainOutcome
  | panicked (effects : List RelayEffect)
  | ok (pending : List RequestId) (effects : List RelayEffect)
  deriving DecidableEq

/-- Drain every queued action in order (source lines 252–383). -/
def drainAll {I V : Type} (ops : SyncOps I V) (chainIndex : Nat) (i : I) :
    List RequestId → List RelayAction → DrainOutcome
  | pending, [] => DrainOutcome.ok pending []
  | pending, a :: rest =>
      match drainOne ops chainIndex i pending a with
      | none => DrainOutcome.panicked []
      | some (p1, e) =>
          match drainAll ops chainIndex i p1 rest with
          | DrainOutcome.panicked effs => DrainOutcome.panicked (e :: effs)
          | DrainOutcome.ok p2 effs => DrainOutcome.ok p2 (e :: effs)

/-- Result of one phase (or of a whole iteration) of the relay loop. -/
inductive PhaseResult (I V : Type)
  | panicked (effects : List RelayEffect)
  | ok (s : RelayState I V) (effects : List RelayEffect)
  deriving DecidableEq

/-- Step 1 of the main loop: if and only if the machine is `Idle`, the
queued actions are converted into outgoing requests. -/
def drainPhase {I V : Type} (ops : SyncOps I V) (chainIndex : Nat)
    (s : RelayState I V) : PhaseResult I V :=
  match s.sync with
  | AllSync.idle i =>
      match drainAll ops chainIndex i s.pendingRequests s.requestsToStart with
      | DrainOutcome.panicked effs => PhaseResult.panicked effs
      | DrainOutcome.ok p effs =>
          PhaseResult.ok
            { s with pendingRequests := p, requestsToStart := [] } effs
  | AllSync.headerVerify _ => PhaseResult.ok s []

/-- Step 2: synchronous header verification (source lines 393–428). -/
def verifyStep {I V : Type} (ops : SyncOps I V) (s : RelayState I V) (v : V) :
    RelayState I V × List RelayEffect :=
  match ops.performVerify v with
  | HeaderVerifyOutcome.success i acts nb nf =>
      ({ s with
          sync := AllSync.idle i
          requestsToStart := s.requestsToStart ++ acts
          hasNewBest := s.hasNewBest || nb
          hasNewFinalized := s.hasNewFinalized || nf }, [])
  | HeaderVerifyOutcome.error i acts =>
      ({ s with
          sync := AllSync.idle i
          requestsToStart := s.requestsToStart ++ acts },
       [RelayEffect.logVerifyWarn])

/-- Step 3: best/finalized notification fan-out with the cooperative yields
(source lines 432–496); `i` is the extracted `Idle` machine. -/
def notifyPhase {I V : Type} (ops : SyncOps I V) (chainIndex : Nat) (i : I)
    (s : RelayState I V) : RelayState I V × List RelayEffect :=
  ({ s with hasNewBest := false, hasNewFinalized := false },
   (if s.hasNewBest then
      [RelayEffect.notifyBestAll (ops.bestBlockHeader i), RelayEffect.yieldOnce]
    else [])
   ++ (if s.hasNewFinalized then
        (match ops.grandpaSetId i with
         | some setId =>
            [RelayEffect.setLocalGrandpaState chainIndex setId 1
              (ops.finalizedBlockNumber i)]
         | none => [])
        ++ [RelayEffect.notifyFinalizedAll (ops.finalizedBlockHeader i),
            RelayEffect.yieldOnce]
      else []))

/-- Abort every request attached to a removed source; `none` models the
`unwrap()` panic when one of them is not in the pending table. -/
def abortAll (pending : List RequestId) :
    List RequestId → Option (List RequestId × List RelayEffect)
  | [] => some (pending, [])
  | r :: rs =>
      if r ∈ pending then
        match abortAll (pending.erase r) rs with
        | some (p, effs) => some (p, RelayEffect.abortRequest r :: effs)
        | none => none
      else none

/-- Result of one whole iteration of the relay main loop.  `next` carries
whether the `select!` input was consumed (it is not when the machine was in
a verifying state, in which case the loop `continue`s without selecting). -/
inductive IterResult (I V : Type)
  | panicked (effects : List RelayEffect)
  | exited (effects : List RelayEffect)
  | next (s : RelayState I V) (inputConsumed : Bool) (effects : List RelayEffect)
  deriving DecidableEq

/-- Completion of a blocks request (source lines 611–660): the request id
leaves the pending table first; an aborted future is silently discarded;
otherwise the (filter-mapped) response is injected into the machine. -/
def handleBlockResp {I V : Type} (ops : SyncOps I V) (i : I)
    (s : RelayState I V) (rid : RequestId)
    (res : Option (Except Unit (List BlockData))) :
    RelayState I V × List RelayEffect :=
  let s1 := { s with pendingRequests := s.pendingRequests.erase rid }
  match res with
  | none => ({ s1 with sync := AllSync.idle i }, [])
  | some r =>
      match ops.blocksRequestResponse i rid (r.map toSuccessBlocks) with
      | BlocksRequestResponseOutcome.verifyHeader v =>
          ({ s1 with sync := AllSync.headerVerify v },
           [RelayEffect.injectBlocksResponse rid])
      | BlocksRequestResponseOutcome.queued i2 acts =>
          ({ s1 with
              sync := AllSync.idle i2
              requestsToStart := s1.requestsToStart ++ acts },
           [RelayEffect.injectBlocksResponse rid])
      | BlocksRequestResponseOutcome.notFinalizedChain i2 acts =>
          ({ s1 with
              sync := AllSync.idle i2
              requestsToStart := s1.requestsToStart ++ acts },
           [RelayEffect.injectBlocksResponse rid])
      | BlocksRequestResponseOutcome.inconclusive i2 acts =>
          ({ s1 with
              sync := AllSync.idle i2
              requestsToStart := s1.requestsToStart ++ acts },
           [RelayEffect.injectBlocksResponse rid])
      | BlocksRequestResponseOutcome.allAlreadyInChain i2 acts =>
          ({ s1 with
              sync := AllSync.idle i2
              requestsToStart := s1.requestsToStart ++ acts },
           [RelayEffect.injectBlocksResponse rid])

/-- Completion of a grandpa warp sync request (source lines 662–698). -/
def handleGrandpaResp {I V : Type} (ops : SyncOps I V) (i : I)
    (s : RelayState I V) (rid : RequestId)
    (res : Option (Except Unit Bytes)) :
    RelayState I V × List RelayEffect :=
  let s1 := { s with pendingRequests := s.pendingRequests.erase rid }
  match res with
  | none => ({ s1 with sync := AllSync.idle i }, [])
  | some r =>
      match ops.grandpaWarpSyncResponse i rid r.toOption with
      | WarpSyncResponseOutcome.warpSyncFinished i2 acts =>
          ({ s1 with
              sync := AllSync.idle i2
              requestsToStart := s1.requestsToStart ++ acts
              hasNewFinalized := true },
           [RelayEffect.injectGrandpaResponse rid,
            RelayEffect.logWarpSyncFinishedInfo (ops.finalizedBlockNumber i2)])
      | WarpSyncResponseOutcome.queued i2 acts =>
          ({ s1 with
              sync := AllSync.idle i2
              requestsToStart := s1.requestsToStart ++ acts },
           [RelayEffect.injectGrandpaResponse rid])

/-- Completion of a storage proof request (source lines 700–736). -/
def handleStorageResp {I V : Type} (ops : SyncOps I V) (i : I)
    (s : RelayState I V) (rid : RequestId)
    (res : Option (Except Unit (List (Option Bytes)))) :
    RelayState I V × List RelayEffect :=
  let s1 := { s with pendingRequests := s.pendingRequests.erase rid }
  match res with
  | none => ({ s1 with sync := AllSync.idle i }, [])
  | some r =>
      match ops.storageGetResponse i rid r with
      | WarpSyncResponseOutcome.warpSyncFinished i2 acts =>
          ({ s1 with
              sync := AllSync.idle i2
              requestsToStart := s1.requestsToStart ++ acts
              hasNewFinalized := true },
           [RelayEffect.injectStorageResponse rid,
            RelayEffect.logWarpSyncFinishedInfo (ops.finalizedBlockNumber i2)])
      | WarpSyncResponseOutcome.queued i2 acts =>
          ({ s1 with
              sync := AllSync.idle i2
              requestsToStart := s1.requestsToStart ++ acts },
           [RelayEffect.injectStorageResponse rid])

/-- Step 4: dispatch on the selected event (source lines 505–737).  `i` is
the `Idle` machine extracted from `s.sync`. -/
def handleInput {I V : Type} (ops : SyncOps I V) (chainIndex : Nat) (i : I)
    (s : RelayState I V) : LoopInput → IterResult I V
  | LoopInput.net none => IterResult.exited []
  | LoopInput.net (some (NetworkEvent.connected peerId ci bestNum bestHash)) =>
      if ci = chainIndex then
        let r := ops.addSource i peerId bestNum bestHash
        IterResult.next
          { s with
              sync := AllSync.idle r.1
              peersSourceIdMap := s.peersSourceIdMap ++ [(peerId, r.2.1)]
              requestsToStart := s.requestsToStart ++ r.2.2 }
          true []
      else IterResult.next { s with sync := AllSync.idle i } true []
  | LoopInput.net (some (NetworkEvent.disconnected peerId ci)) =>
      if ci = chainIndex then
        match (s.peersSourceIdMap.find? fun x => x.1 = peerId) with
        | none => IterResult.panicked []
        | some entry =>
            let r := ops.removeSource i entry.2
            match abortAll s.pendingRequests r.2 with
            | none => IterResult.panicked []
            | some (p, effs) =>
                IterResult.next
                  { s with
                      sync := AllSync.idle r.1
                      peersSourceIdMap :=
                        s.peersSourceIdMap.eraseP fun x => x.1 = peerId
                      pendingRequests := p }
                  true effs
      else IterResult.next { s with sync := AllSync.idle i } true []
  | LoopInput.net (some (NetworkEvent.blockAnnounce peerId ci hdr isBest)) =>
      if ci = chainIndex then
        match (s.peersSourceIdMap.find? fun x => x.1 = peerId) with
        | none => IterResult.panicked []
        | some entry =>
            match ops.blockAnnounce i entry.2 hdr isBest with
            | BlockAnnounceOutcome.headerVerify v =>
                IterResult.next { s with sync := AllSync.headerVerify v } true []
            | BlockAnnounceOutcome.tooOld i2 =>
                IterResult.next { s with sync := AllSync.idle i2 } true []
            | BlockAnnounceOutcome.alreadyInChain i2 =>
                IterResult.next { s with sync := AllSync.idle i2 } true []
            | BlockAnnounceOutcome.notFinalizedChain i2 =>
                IterResult.next { s with sync := AllSync.idle i2 } true []
            | BlockAnnounceOutcome.disjoint i2 acts =>
                IterResult.next
                  { s with
                      sync := AllSync.idle i2
                      requestsToStart := s.requestsToStart ++ acts } true []
            | BlockAnnounceOutcome.invalidHeader i2 =>
                IterResult.next { s with sync := AllSync.idle i2 } true []
      else IterResult.next { s with sync := AllSync.idle i } true []
  | LoopInput.net (some (NetworkEvent.grandpaCommitMessage _)) =>
      IterResult.next { s with sync := AllSync.idle i } true []
  | LoopInput.fg none => IterResult.exited []
  | LoopInput.fg (some ToBackgroundMsg.isNearHead) =>
      IterResult.next { s with sync := AllSync.idle i } true
        [RelayEffect.replyBool (ops.isNearHeadOfChainHeuristic i)]
  | LoopInput.fg (some ToBackgroundMsg.subscribeFinalized) =>
      IterResult.next
        { s with
            sync := AllSync.idle i
            finalizedNotificationCount := s.finalizedNotificationCount + 1 }
        true [RelayEffect.replySubscription (ops.finalizedBlockHeader i)]
  | LoopInput.fg (some ToBackgroundMsg.subscribeBest) =>
      IterResult.next
        { s with
            sync := AllSync.idle i
            bestNotificationCount := s.bestNotificationCount + 1 }
        true [RelayEffect.replySubscription (ops.bestBlockHeader i)]
  | LoopInput.blockResp rid res =>
      let r := handleBlockResp ops i s rid res
      IterResult.next r.1 true r.2
  | LoopInput.grandpaResp rid res =>
      let r := handleGrandpaResp ops i s rid res
      IterResult.next r.1 true r.2
  | LoopInput.storageResp rid res =>
      let r := handleStorageResp ops i s rid res
      IterResult.next r.1 true r.2

/-- One iteration of the relay main loop (source lines 243–738): drain the
action queue (only when `Idle`), then either perform a pending header
verification and loop (input not consumed), or fan out notifications and
process the selected event. -/
def relayIteration {I V : Type} (ops : SyncOps I V) (chainIndex : Nat)
    (s : RelayState I V) (input : LoopInput) : IterResult I V :=
  match drainPhase ops chainIndex s with
  | PhaseResult.panicked effs => IterResult.panicked effs
  | PhaseResult.ok s1 effs =>
      match s1.sync with
      | AllSync.headerVerify v =>
          let r := verifyStep ops s1 v
          IterResult.next r.1 false (effs ++ r.2)
      | AllSync.idle i =>
          let r := notifyPhase ops chainIndex i s1
          match handleInput ops chainIndex i r.1 input with
          | IterResult.panicked e3 => IterResult.panicked (effs ++ r.2 ++ e3)
          | IterResult.exited e3 => IterResult.exited (effs ++ r.2 ++ e3)
          | IterResult.next s3 consumed e3 =>
              IterResult.next s3 consumed (effs ++ r.2 ++ e3)

/-- The effects carried by an iteration result, whatever its kind. -/
def iterEffects {I V : Type} : IterResult I V → List RelayEffect
  | IterResult.panicked effs => effs
  | IterResult.exited effs => effs
  | IterResult.next _ _ effs => effs

/-- The effects of the drain phase alone, whatever its outcome. -/
def drainEffects {I V : Type} (ops : SyncOps I V) (chainIndex : Nat)
    (s : RelayState I V) : List RelayEffect :=
  match drainPhase ops chainIndex s with
  | PhaseResult.panicked effs => effs
  | PhaseResult.ok _ effs => effs

/-- The request id named by an injection effect, if any. -/
def injectRid : RelayEffect → Option RequestId
  | RelayEffect.injectBlocksResponse r => some r
  | RelayEffect.injectGrandpaResponse r => some r
  | RelayEffect.injectStorageResponse r => some r
  | _ => none

/-- The request id and abortedness of a completed-request input, if the
input is one. -/
def responseInput : LoopInput → Option (RequestId × Bool)
  | LoopInput.blockResp rid res => some (rid, res.isNone)
  | LoopInput.grandpaResp rid res => some (rid, res.isNone)
  | LoopInput.storageResp rid res => some (rid, res.isNone)
  | _ => none

/-- The outgoing request (or abort) that dispatching a given action must
produce: same request id, matching request kind, and all fields copied
from the action (with the block count clamped by `desiredCount`). -/
def actionMatchesEffect (chainIndex : Nat) :
    RelayAction → RelayEffect → Prop
  | RelayAction.start _ rid (RequestDetail.blocksRequest fb asc nb rh rb rj),
    RelayEffect.startBlocksRequest _ ci rid1 fb1 cnt asc1 rh1 rb1 rj1 =>
      ci = chainIndex ∧ rid1 = rid ∧ fb1 = fb ∧ cnt = desiredCount nb
        ∧ asc1 = asc ∧ rh1 = rh ∧ rb1 = rb ∧ rj1 = rj
  | RelayAction.start _ rid (RequestDetail.grandpaWarpSync h),
    RelayEffect.startGrandpaRequest _ ci rid1 h1 =>
      ci = chainIndex ∧ rid1 = rid ∧ h1 = h
  | RelayAction.start _ rid (RequestDetail.storageGet bh _ keys),
    RelayEffect.startStorageRequest _ ci rid1 bh1 keys1 =>
      ci = chainIndex ∧ rid1 = rid ∧ bh1 = bh ∧ keys1 = keys
  | RelayAction.cancel rid, RelayEffect.abortRequest rid1 => rid1 = rid
  | _, _ => False

/-- A successful drain converts the queued actions one-for-one, in order,
into their outgoing requests. -/
theorem drainAll_forall2 {I V : Type} (ops : SyncOps I V) (ci : Nat) (i : I) :
    ∀ (acts : List RelayAction) (pending p : List RequestId)
      (effs : List RelayEffect),
      drainAll ops ci i pending acts = DrainOutcome.ok p effs →
      List.Forall₂ (actionMatchesEffect ci) acts effs := by
  intro acts
  induction acts with
  | nil =>
      intro pending p effs h
      simp only [drainAll] at h
      cases h
      exact List.Forall₂.nil
  | cons a rest ih =>
      intro pending p effs h
      simp only [drainAll] at h
      rcases hd1 : drainOne ops ci i pending a with _ | pe
      · rw [hd1] at h
        cases h
      · obtain ⟨p1, e⟩ := pe
        simp only [hd1] at h
        cases hd2 : drainAll ops ci i p1 rest with
        | panicked effs2 =>
            simp only [hd2] at h
            cases h
        | ok p2 effs2 =>
            simp only [hd2] at h
            cases h
            refine List.Forall₂.cons ?_ (ih p1 _ _ hd2)
            cases a with
            | start sid rid detail =>
                cases detail with
                | blocksRequest fb asc nb rh rb rj =>
                    simp only [drainOne, Option.some.injEq, Prod.mk.injEq] at hd1
                    obtain ⟨_, he⟩ := hd1
                    subst he
                    exact ⟨rfl, rfl, rfl, rfl, rfl, rfl, rfl, rfl⟩
                | grandpaWarpSync hh =>
                    simp only [drainOne, Option.some.injEq, Prod.mk.injEq] at hd1
                    obtain ⟨_, he⟩ := hd1
                    subst he
                    exact ⟨rfl, rfl, rfl⟩
                | storageGet bh rt keys =>
                    simp only [drainOne, Option.some.injEq, Prod.mk.injEq] at hd1
                    obtain ⟨_, he⟩ := hd1
                    subst he
                    exact ⟨rfl, rfl, rfl, rfl⟩
            | cancel rid =>
                simp only [drainOne] at hd1
                by_cases hmem : rid ∈ pending
                · rw [if_pos hmem] at hd1
                  simp only [Option.some.injEq, Prod.mk.injEq] at hd1
                  obtain ⟨_, he⟩ := hd1
                  subst he
                  exact rfl
                · rw [if_neg hmem] at hd1
                  cases hd1

/-! ## Relay claims: configuration and storage-proof handling -/

/-- C8: the relay task builds `AllSync` with sources capacity 32, the
sampled random seed, blocks-request granularity 128, blocks capacity 1024,
download-ahead window 5000, full-block download disabled; and every
dispatched blocks request carries desired count
`min(num_blocks, u32::MAX)`. -/
theorem relay_allsync_config (seed : Nat) :
    (relayAllSyncConfig seed).sourcesCapacity = 32
    ∧ (relayAllSyncConfig seed).sourceSelectionRandomnessSeed = seed
    ∧ (relayAllSyncConfig seed).blocksRequestGranularity = 128
    ∧ (relayAllSyncConfig seed).blocksCapacity = 1024
    ∧ (relayAllSyncConfig seed).downloadAheadBlocks = 5000
    ∧ (relayAllSyncConfig seed).full = none
    ∧ (∀ numBlocks : Nat, desiredCount numBlocks = min numBlocks 4294967295)
    ∧ ∀ (I V : Type) (ops : SyncOps I V) (ci : Nat) (i : I)
        (pending : List RequestId) (sid : SourceId) (rid : RequestId)
        (fb : FirstBlock) (asc : Bool) (nb : Nat) (rh rb rj : Bool),
        drainOne ops ci i pending
          (RelayAction.start sid rid
            (RequestDetail.blocksRequest fb asc nb rh rb rj))
          = some (pending ++ [rid],
              RelayEffect.startBlocksRequest (ops.sourceUserData i sid) ci rid
                fb (min nb 4294967295) asc rh rb rj) := by
  have hmin : ∀ n : Nat, desiredCount n = min n 4294967295 := by
    intro n
    simp only [desiredCount, Nat.min_def]
  refine ⟨rfl, rfl, rfl, rfl, rfl, rfl, hmin, ?_⟩
  intro I V ops ci i pending sid rid fb asc nb rh rb rj
  simp only [drainOne, hmin nb]

/-- C1 (code bug): in the storage-proof continuation, a network-level
failure is reported as an errored response, but a key whose proof fails
verification hits the debugging `panic!` in the `map_err` closure instead
of producing the errored response: the result of a request with one key
and a verifier that rejects it is a panic. -/
theorem storage_verify_failure_panics :
    storageRequestResult (fun _ _ _ => Except.error ()) [] [[0]]
        (Except.ok []) = PanicOr.panicked
    ∧ storageRequestResult (fun _ _ _ => Except.error ()) [] [[0]]
        (Except.error ()) = PanicOr.ok (Except.error ())
    ∧ storageRequestResult (fun _ k _ => Except.ok (some k)) [] [[0], [1]]
        (Except.ok []) = PanicOr.ok (Except.ok [some [0], some [1]]) := by
  exact ⟨rfl, rfl, rfl⟩

/-! ## Relay claims: main-loop ordering, panics, response completion -/

/-- C4: queued actions are converted to outgoing requests if and only if
the machine is `Idle` (a verifying machine leaves the queue and the table
untouched and emits nothing), they are dispatched one-for-one in emission
order, and every iteration's effect list begins with the drain-phase
effects — so the drain happens before any network event, foreground
message or response completion is processed. -/
theorem relay_drain_discipline {I V : Type} (ops : SyncOps I V) (ci : Nat)
    (s : RelayState I V) (input : LoopInput) :
    (∀ v, s.sync = AllSync.headerVerify v →
        drainPhase ops ci s = PhaseResult.ok s [])
    ∧ (∀ i p effs, s.sync = AllSync.idle i →
        drainAll ops ci i s.pendingRequests s.requestsToStart
          = DrainOutcome.ok p effs →
        drainPhase ops ci s
            = PhaseResult.ok
                { s with pendingRequests := p, requestsToStart := [] } effs
          ∧ List.Forall₂ (actionMatchesEffect ci) s.requestsToStart effs)
    ∧ ∃ rest, iterEffects (relayIteration ops ci s input)
        = drainEffects ops ci s ++ rest := by
  refine ⟨?_, ?_, ?_⟩
  · intro v hv
    simp [drainPhase, hv]
  · intro i p effs hi hall
    refine ⟨?_, drainAll_forall2 ops ci i s.requestsToStart
      s.pendingRequests p effs hall⟩
    simp [drainPhase, hi, hall]
  · simp only [relayIteration, drainEffects]
    cases hdp : drainPhase ops ci s with
    | panicked effs => exact ⟨[], by simp [iterEffects]⟩
    | ok s1 effs =>
        cases hs1 : s1.sync with
        | headerVerify v =>
            exact ⟨(verifyStep ops s1 v).2, by simp [iterEffects, hs1]⟩
        | idle i =>
            cases hh : handleInput ops ci i (notifyPhase ops ci i s1).1 input with
            | panicked e3 =>
                exact ⟨(notifyPhase ops ci i s1).2 ++ e3,
                  by simp [iterEffects, hs1, hh, List.append_assoc]⟩
            | exited e3 =>
                exact ⟨(notifyPhase ops ci i s1).2 ++ e3,
                  by simp [iterEffects, hs1, hh, List.append_assoc]⟩
            | next s3 consumed e3 =>
                exact ⟨(notifyPhase ops ci i s1).2 ++ e3,
                  by simp [iterEffects, hs1, hh, List.append_assoc]⟩

/-- Trivial concrete instantiation of the machine interface, used to
evaluate the model at concrete inputs. -/
def unitOps : SyncOps Unit Unit :=
  { sourceUserData := fun _ _ => 0
    performVerify := fun _ => HeaderVerifyOutcome.success () [] false false
    isNearHeadOfChainHeuristic := fun _ => true
    finalizedBlockHeader := fun _ => []
    finalizedBlockNumber := fun _ => 0
    bestBlockHeader := fun _ => []
    grandpaSetId := fun _ => none
    addSource := fun i p _ _ => (i, p, [])
    removeSource := fun i _ => (i, [])
    blockAnnounce := fun i _ _ _ => BlockAnnounceOutcome.tooOld i
    blocksRequestResponse := fun i _ _ =>
      BlocksRequestResponseOutcome.queued i []
    grandpaWarpSyncResponse := fun i _ _ => WarpSyncResponseOutcome.queued i []
    storageGetResponse := fun i _ _ => WarpSyncResponseOutcome.queued i [] }

/-- An idle relay state with one queued warp-sync action. -/
def relayDemoState : RelayState Unit Unit :=
  { sync := AllSync.idle ()
    peersSourceIdMap := []
    pendingRequests := []
    finalizedNotificationCount := 0
    bestNotificationCount := 0
    requestsToStart :=
      [RelayAction.start 0 5 (RequestDetail.grandpaWarpSync [1])]
    hasNewBest := false
    hasNewFinalized := false }

theorem relay_drain_discipline_witness :
    (drainPhase unitOps 0 relayDemoState
        = PhaseResult.ok
            { relayDemoState with pendingRequests := [5], requestsToStart := [] }
            [RelayEffect.startGrandpaRequest 0 0 5 [1]]
      ∧ List.Forall₂ (actionMatchesEffect 0) relayDemoState.requestsToStart
          [RelayEffect.startGrandpaRequest 0 0 5 [1]])
    ∧ ∃ rest,
        iterEffects (relayIteration unitOps 0 relayDemoState
          (LoopInput.fg (some ToBackgroundMsg.isNearHead)))
          = drainEffects unitOps 0 relayDemoState ++ rest :=
  ⟨(relay_drain_discipline unitOps 0 relayDemoState
      (LoopInput.fg (some ToBackgroundMsg.isNearHead))).2.1 () [5]
      [RelayEffect.startGrandpaRequest 0 0 5 [1]] rfl (by decide),
   (relay_drain_discipline unitOps 0 relayDemoState
      (LoopInput.fg (some ToBackgroundMsg.isNearHead))).2.2⟩

/-- C6: a `Cancel` action naming a request id that is not pending, and a
`Disconnected` event for a peer with no entry in the peer-to-source map,
both terminate the task with a panic (the `unwrap()` calls at source lines
380 and 530) rather than being ignored. -/
theorem relay_programming_error_panics {I V : Type} (ops : SyncOps I V)
    (ci : Nat) (s t : RelayState I V) (i j : I) (rid : RequestId)
    (peerId : PeerId) (input : LoopInput) (rest : List RelayAction)
    (h1 : s.sync = AllSync.idle i)
    (h2 : s.requestsToStart = RelayAction.cancel rid :: rest)
    (h3 : rid ∉ s.pendingRequests)
    (h4 : t.sync = AllSync.idle j)
    (h5 : t.requestsToStart = [])
    (h6 : (t.peersSourceIdMap.find? fun x => x.1 = peerId) = none) :
    relayIteration ops ci s input = IterResult.panicked []
    ∧ ∃ effs, relayIteration ops ci t
        (LoopInput.net (some (NetworkEvent.disconnected peerId ci)))
        = IterResult.panicked effs := by
  constructor
  · simp [relayIteration, drainPhase, h1, h2, drainAll, drainOne, h3]
  · refine ⟨(notifyPhase ops ci j
        { t with
            pendingRequests := t.pendingRequests
            requestsToStart := [] }).2, ?_⟩
    simp [relayIteration, drainPhase, h4, h5, drainAll, handleInput, h6,
      notifyPhase]

/-- An idle relay state queuing a cancel for the non-pending id 9. -/
def cancelPanicState : RelayState Unit Unit :=
  { sync := AllSync.idle ()
    peersSourceIdMap := []
    pendingRequests := []
    finalizedNotificationCount := 0
    bestNotificationCount := 0
    requestsToStart := [RelayAction.cancel 9]
    hasNewBest := false
    hasNewFinalized := false }

/-- An idle relay state with nothing queued, nothing pending, no peers. -/
def idleEmptyState : RelayState Unit Unit :=
  { sync := AllSync.idle ()
    peersSourceIdMap := []
    pendingRequests := []
    finalizedNotificationCount := 0
    bestNotificationCount := 0
    requestsToStart := []
    hasNewBest := false
    hasNewFinalized := false }

theorem relay_programming_error_panics_witness :
    relayIteration unitOps 0 cancelPanicState
        (LoopInput.fg (some ToBackgroundMsg.isNearHead))
      = IterResult.panicked []
    ∧ ∃ effs, relayIteration unitOps 0 idleEmptyState
        (LoopInput.net (some (NetworkEvent.disconnected 3 0)))
        = IterResult.panicked effs :=
  relay_programming_error_panics unitOps 0 cancelPanicState idleEmptyState
    () () 9 3 (LoopInput.fg (some ToBackgroundMsg.isNearHead)) []
    rfl rfl (by decide) rfl rfl (by decide)

/-- The notification fan-out only clears the two flags. -/
theorem notifyPhase_state {I V : Type} (ops : SyncOps I V) (ci : Nat) (i : I)
    (s : RelayState I V) :
    (notifyPhase ops ci i s).1
      = { s with hasNewBest := false, hasNewFinalized := false } := rfl

/-- The notification fan-out emits no response-injection effect. -/
theorem notifyPhase_no_inject {I V : Type} (ops : SyncOps I V) (ci : Nat)
    (i : I) (s : RelayState I V) :
    (notifyPhase ops ci i s).2.filterMap injectRid = [] := by
  simp only [notifyPhase]
  cases hb : s.hasNewBest <;> cases hf : s.hasNewFinalized <;>
    rcases hg : ops.grandpaSetId i with _ | setId <;>
      simp [injectRid, List.filterMap_append]

/-- C7: when a completed request future is selected (machine idle, queue
already drained), the resulting iteration continues with the request id
removed from the pending table; an aborted completion injects nothing into
the machine and leaves it exactly as extracted, while a non-aborted one
injects exactly one response, for that request id. -/
theorem relay_response_completion {I V : Type} (ops : SyncOps I V) (ci : Nat)
    (s : RelayState I V) (i : I) (input : LoopInput) (rid : RequestId)
    (aborted : Bool)
    (h1 : s.sync = AllSync.idle i)
    (h2 : s.requestsToStart = [])
    (h3 : responseInput input = some (rid, aborted)) :
    match relayIteration ops ci s input with
    | IterResult.next s2 consumed effs =>
        consumed = true
        ∧ s2.pendingRequests = s.pendingRequests.erase rid
        ∧ effs.filterMap injectRid = (if aborted then [] else [rid])
        ∧ (aborted = true → s2.sync = AllSync.idle i)
    | IterResult.exited _ => False
    | IterResult.panicked _ => False := by
  have hdrain : drainPhase ops ci s
      = PhaseResult.ok
          { s with
              pendingRequests := s.pendingRequests
              requestsToStart := [] }
          [] := by
    simp [drainPhase, h1, h2, drainAll]
  cases input with
  | net e => simp [responseInput] at h3
  | fg m => simp [responseInput] at h3
  | blockResp rid1 res =>
      simp only [responseInput, Option.some.injEq, Prod.mk.injEq] at h3
      obtain ⟨rfl, rfl⟩ := h3
      cases res with
      | none =>
          simp [relayIteration, hdrain, h1, handleInput, handleBlockResp,
            List.filterMap_append, notifyPhase_no_inject, notifyPhase_state, injectRid]
      | some r =>
          cases ho : ops.blocksRequestResponse i rid1 (r.map toSuccessBlocks) with
          | verifyHeader v =>
              simp [relayIteration, hdrain, h1, handleInput, handleBlockResp,
                ho, List.filterMap_append, notifyPhase_no_inject, notifyPhase_state, injectRid]
          | queued i2 acts =>
              simp [relayIteration, hdrain, h1, handleInput, handleBlockResp,
                ho, List.filterMap_append, notifyPhase_no_inject, notifyPhase_state, injectRid]
          | notFinalizedChain i2 acts =>
              simp [relayIteration, hdrain, h1, handleInput, handleBlockResp,
                ho, List.filterMap_append, notifyPhase_no_inject, notifyPhase_state, injectRid]
          | inconclusive i2 acts =>
              simp [relayIteration, hdrain, h1, handleInput, handleBlockResp,
                ho, List.filterMap_append, notifyPhase_no_inject, notifyPhase_state, injectRid]
          | allAlreadyInChain i2 acts =>
              simp [relayIteration, hdrain, h1, handleInput, handleBlockResp,
                ho, List.filterMap_append, notifyPhase_no_inject, notifyPhase_state, injectRid]
  | grandpaResp rid1 res =>
      simp only [responseInput, Option.some.injEq, Prod.mk.injEq] at h3
      obtain ⟨rfl, rfl⟩ := h3
      cases res with
      | none =>
          simp [relayIteration, hdrain, h1, handleInput, handleGrandpaResp,
            List.filterMap_append, notifyPhase_no_inject, notifyPhase_state, injectRid]
      | some r =>
          cases ho : ops.grandpaWarpSyncResponse i rid1 r.toOption with
          | warpSyncFinished i2 acts =>
              simp [relayIteration, hdrain, h1, handleInput, handleGrandpaResp,
                ho, List.filterMap_append, notifyPhase_no_inject, notifyPhase_state, injectRid]
          | queued i2 acts =>
              simp [relayIteration, hdrain, h1, handleInput, handleGrandpaResp,
                ho, List.filterMap_append, notifyPhase_no_inject, notifyPhase_state, injectRid]
  | storageResp rid1 res =>
      simp only [responseInput, Option.some.injEq, Prod.mk.injEq] at h3
      obtain ⟨rfl, rfl⟩ := h3
      cases res with
      | none =>
          simp [relayIteration, hdrain, h1, handleInput, handleStorageResp,
            List.filterMap_append, notifyPhase_no_inject, notifyPhase_state, injectRid]
      | some r =>
          cases ho : ops.storageGetResponse i rid1 r with
          | warpSyncFinished i2 acts =>
              simp [relayIteration, hdrain, h1, handleInput, handleStorageResp,
                ho, List.filterMap_append, notifyPhase_no_inject, notifyPhase_state, injectRid]
          | queued i2 acts =>
              simp [relayIteration, hdrain, h1, handleInput, handleStorageResp,
                ho, List.filterMap_append, notifyPhase_no_inject, notifyPhase_state, injectRid]

/-- An idle relay state with request 5 pending and nothing queued. -/
def pendingState : RelayState Unit Unit :=
  { sync := AllSync.idle ()
    peersSourceIdMap := []
    pendingRequests := [5]
    finalizedNotificationCount := 0
    bestNotificationCount := 0
    requestsToStart := []
    hasNewBest := false
    hasNewFinalized := false }

theorem relay_response_completion_witness :
    match relayIteration unitOps 0 pendingState (LoopInput.blockResp 5 none) with
    | IterResult.next s2 consumed effs =>
        consumed = true
        ∧ s2.pendingRequests = pendingState.pendingRequests.erase 5
        ∧ effs.filterMap injectRid = (if true then [] else [5])
        ∧ (true = true → s2.sync = AllSync.idle ())
    | IterResult.exited _ => False
    | IterResult.panicked _ => False :=
  relay_response_completion unitOps 0 pendingState ()
    (LoopInput.blockResp 5 none) 5 true rfl rfl rfl

end SyncService
